import Mathlib

/-!
Shallow embedding of the wheretheissat backend (`src/api.py`):
the poller's decide-and-append cycle (`fetch_iss_data`), the
window reconstructor (`get_iss_sun_exposures`), the shutdown
reconciler (`shutdown_event`) and the polygon post endpoint
(`post_2d_polygon`), together with proofs of the spec's claims
about them.

Modelling conventions:
* SQLite tables become Lean lists in insertion (`id ASC`) order;
  `ORDER BY id DESC LIMIT 1` becomes `List.getLast?`.
* The `window` column is `TEXT`, so markers are `String`s compared
  against the literals `"start"` / `"end"` exactly as the Python does.
* `REAL` columns (latitude/longitude) are modelled by `Rat`;
  their values flow through opaquely.
* A successful HTTP fetch yields an `ISSData` record; a
  `requests.RequestException` (unreachable source, timeout, or the
  `raise_for_status` on a non-success status) is raised inside the
  `with requests.get(...)` block before any database statement runs,
  so it is modelled as a fetch outcome carrying no data.
* An endpoint body that raises is caught by the `log` decorator and
  turned into the response `{'message': 'An error occured'}`; a
  function that can raise is therefore modelled with `Option`,
  `none` standing for that error response.
-/

namespace WhereTheISS

/-- A row of the `iss_positions` table (minus the autoincrement id,
which is represented by list position). -/
structure PositionRow where
  timestamp : String
  latitude : Rat
  longitude : Rat
deriving DecidableEq

/-- A row of the `iss_sun_exposures` table: `timestamp TEXT, window TEXT`. -/
structure ExpRow where
  timestamp : String
  window : String
deriving DecidableEq

/-- The JSON payload of a successful fetch from the telemetry source:
the fields of `data` that `fetch_iss_data` reads. -/
structure ISSData where
  timestamp : String
  latitude : Rat
  longitude : Rat
  visibility : String
deriving DecidableEq

/-- Outcome of one `requests.get` in the poll loop.  `transportError`
covers `requests.RequestException`: unreachable source, timeout, and
the `HTTPError` raised by `response.raise_for_status()` on a
non-success status — all raised before any cursor operation. -/
inductive FetchResult where
  | success (data : ISSData)
  | transportError
deriving DecidableEq

/-- The two tables the poller writes, each in insertion order. -/
structure DBState where
  positions : List PositionRow
  exposures : List ExpRow
deriving DecidableEq

/-- `SELECT window FROM iss_sun_exposures ORDER BY id DESC LIMIT 1`:
the `window` value of the most recently inserted exposure row, if any. -/
def lastMarker (exposures : List ExpRow) : Option String :=
  exposures.getLast?.map ExpRow.window

/-- One iteration of the `while True` loop of `fetch_iss_data`.
Returns the database state after the iteration together with the
delay slept in the `finally` block (`time.sleep(20)`, taken on every
path).  On success the body reads the last exposure marker, inserts a
position row, then inserts `start` if the visibility is `'daylight'`
and the log is empty or last ended, inserts `end` if the visibility
is not `'daylight'` and the last marker is `'start'`, and commits. -/
def fetch_iss_data_cycle (s : DBState) (r : FetchResult) : DBState × Nat :=
  match r with
  | .success data =>
      let sun_exposure : Option String := lastMarker s.exposures
      let positions' := s.positions ++ [⟨data.timestamp, data.latitude, data.longitude⟩]
      let exposures' :=
        if data.visibility = "daylight" then
          if sun_exposure = none ∨ sun_exposure = some "end" then
            s.exposures ++ [⟨data.timestamp, "start"⟩]
          else
            s.exposures
        else
          if sun_exposure = some "start" then
            s.exposures ++ [⟨data.timestamp, "end"⟩]
          else
            s.exposures
      (⟨positions', exposures'⟩, 20)
  | .transportError => (s, 20)

/-- The poll loop run over a finite list of fetch outcomes, threading
the database state through the cycles. -/
def runPoller (s : DBState) (rs : List FetchResult) : DBState :=
  rs.foldl (fun st r => (fetch_iss_data_cycle st r).1) s

/-- The `window` column of the exposure log in insertion order. -/
def markers (exposures : List ExpRow) : List String :=
  exposures.map ExpRow.window

/-- The alternation invariant on the marker sequence, read in insertion
order: `start, end, start, end, …` with at most one trailing unmatched
`start` — never a trailing unmatched `end` and never two consecutive
markers of the same kind.  Equivalently the sequence matches the
regular expression `(start end)* (start | ε)`. -/
def validLog : List String → Bool
  | [] => true
  | [m] => m = "start"
  | m1 :: m2 :: rest => m1 = "start" && (m2 = "end" && validLog rest)

/-- One timestamp value in the `/iss/sun` response: closed windows carry
the source-native string timestamps, a synthesized open window's `end`
is the numeric epoch second `int(datetime.now().timestamp())`. -/
inductive TsVal where
  | str (s : String)
  | num (n : Int)
deriving DecidableEq

/-- One entry of the `sun_exposures` response list. -/
structure Window where
  start : String
  «end» : TsVal
deriving DecidableEq

/-- The pairing loop of `get_iss_sun_exposures`:
`for i in range(0, len(rows) - 1, 2)` walks the rows two at a time,
asserting the first of each pair is `'start'` and the second `'end'`
(a failed assert raises, modelled by `none`), and collects the two
timestamps.  A final unpaired row is not visited by the loop. -/
def pairWindows : List ExpRow → Option (List (String × String))
  | r1 :: r2 :: rest =>
      if r1.window = "start" then
        if r2.window = "end" then
          match pairWindows rest with
          | some ps => some ((r1.timestamp, r2.timestamp) :: ps)
          | none => none
        else none
      else none
  | _ => some []

/-- The body of the `/iss/sun` endpoint `get_iss_sun_exposures`, with
the current wall-clock epoch second passed in as `now`.  It reads all
exposure rows in insertion order, pairs them (asserting alternation
within each pair), and if the last row's marker is `'start'` appends
one synthesized open window ending at `now`.  `none` is the raising
path, which the `log` decorator turns into
`{'message': 'An error occured'}`; `some ws` is the normal response
`{"sun_exposures": ws}`. -/
def get_iss_sun_exposures (rows : List ExpRow) (now : Int) : Option (List Window) :=
  match pairWindows rows with
  | none => none
  | some closed =>
      let result := closed.map (fun p => ⟨p.1, TsVal.str p.2⟩)
      match rows.getLast? with
      | none => some result
      | some r =>
          if r.window = "start" then
            some (result ++ [⟨r.timestamp, TsVal.num now⟩])
          else
            some result

/-- The shutdown reconciler `shutdown_event`: if the most recent
exposure row's marker is `'start'`, delete that row (by its id, i.e.
the last row); otherwise do nothing.  The positions table is untouched. -/
def shutdown_event (s : DBState) : DBState :=
  match s.exposures.getLast? with
  | some r =>
      if r.window = "start" then
        { s with exposures := s.exposures.dropLast }
      else s
  | none => s

/-- Build an exposure log consisting entirely of consecutive
`(start, end)` pairs: for each pair of timestamps `(t1, t2)` the rows
`(t1, start)` and `(t2, end)`, in order. -/
def eventsOfPairs : List (String × String) → List ExpRow
  | [] => []
  | p :: ps => ⟨p.1, "start"⟩ :: ⟨p.2, "end"⟩ :: eventsOfPairs ps

/-- A row of the `polygons` table (minus the autoincrement id):
`uuid TEXT UNIQUE, color TEXT, wkt TEXT`. -/
structure PolygonRow where
  uuid : String
  color : String
  wkt : String
deriving DecidableEq

/-- `cud_operation` applied to the `INSERT INTO polygons` statement.
The `uuid` column is declared `UNIQUE`, so SQLite raises
`IntegrityError` — modelled by `none` — when a row with the same uuid
already exists, leaving the table unchanged (the statement fails
before the commit); otherwise the row is appended and the rowcount `1`
is returned. -/
def insertPolygon (store : List PolygonRow) (p : PolygonRow) :
    Option (List PolygonRow × Nat) :=
  if store.any (fun r => r.uuid = p.uuid) then none
  else some (store ++ [p], 1)

/-- The body of `post_2d_polygon` under the `log` decorator.
`valid` is the result of `is_valid_2d_wkt_polygon(polygon.wkt)`
(shapely geometry validation, taken as an input here).  Returns the
polygon table after the call and the `message` field of the response;
an exception escaping the body (the uniqueness violation) is caught by
the decorator, which answers `'An error occured'`. -/
def post_2d_polygon (valid : Bool) (store : List PolygonRow) (p : PolygonRow) :
    List PolygonRow × String :=
  if valid then
    match insertPolygon store p with
    | none => (store, "An error occured")
    | some (store', n) =>
        if n ≠ 0 then (store', p.uuid) else (store', "No affected rows")
  else
    (store, "The wkt string is not a valid 2D polygon")

/-! ## Helper lemmas -/

theorem pairWindows_eventsOfPairs (ps : List (String × String)) :
    pairWindows (eventsOfPairs ps) = some ps := by
  induction ps with
  | nil => rfl
  | cons p ps ih => simp [eventsOfPairs, pairWindows, ih]

theorem eventsOfPairs_getLast? (ps : List (String × String)) (hne : ps ≠ []) :
    ∃ t, (eventsOfPairs ps).getLast? = some ⟨t, "end"⟩ := by
  induction ps with
  | nil => exact absurd rfl hne
  | cons p ps ih =>
      cases hps : ps with
      | nil => exact ⟨p.2, rfl⟩
      | cons q qs =>
          obtain ⟨t, ht⟩ := ih (by simp [hps])
          rw [hps] at ht
          refine ⟨t, ?_⟩
          rw [show eventsOfPairs (p :: q :: qs) =
                ExpRow.mk p.1 "start" :: ExpRow.mk p.2 "end" ::
                  ExpRow.mk q.1 "start" :: ExpRow.mk q.2 "end" ::
                    eventsOfPairs qs from rfl,
              List.getLast?_cons_cons, List.getLast?_cons_cons]
          exact ht

/-! ## Claim theorems -/

/-- C9: when the sun-exposure event log is empty, `get_iss_sun_exposures`
returns an empty sequence (the normal response, not the error path). -/
theorem get_iss_sun_exposures_empty (now : Int) :
    get_iss_sun_exposures [] now = some [] := rfl

/-- C4: on an event log consisting entirely of consecutive
`(start, end)` pairs, `get_iss_sun_exposures` returns exactly one
closed window per pair, in log order, with each window's bounds taken
from the pair's timestamps; in particular
`[(t1,start),(t2,end),(t3,start),(t4,end)]` yields exactly
`[{start:t1,end:t2},{start:t3,end:t4}]`. -/
theorem get_iss_sun_exposures_round_trip (ps : List (String × String))
    (t1 t2 t3 t4 : String) (now : Int) :
    get_iss_sun_exposures (eventsOfPairs ps) now =
        some (ps.map fun p => ⟨p.1, TsVal.str p.2⟩)
      ∧ get_iss_sun_exposures
          [⟨t1, "start"⟩, ⟨t2, "end"⟩, ⟨t3, "start"⟩, ⟨t4, "end"⟩] now =
        some [⟨t1, TsVal.str t2⟩, ⟨t3, TsVal.str t4⟩] := by
  have main : ∀ qs : List (String × String),
      get_iss_sun_exposures (eventsOfPairs qs) now =
        some (qs.map fun p => ⟨p.1, TsVal.str p.2⟩) := by
    intro qs
    unfold get_iss_sun_exposures
    rw [pairWindows_eventsOfPairs]
    cases hqs : qs with
    | nil => rfl
    | cons q rest =>
        obtain ⟨t, ht⟩ := eventsOfPairs_getLast? (q :: rest) (by simp)
        rw [ht]
        simp
  refine ⟨main ps, ?_⟩
  have := main [(t1, t2), (t3, t4)]
  simpa [eventsOfPairs] using this

/-- C5: when the final event of the log is an unmatched `start` at
timestamp `t1` and the listing succeeds, the last returned window is
`{start: t1, end: now}` with `now` the numeric epoch second of the
call, every earlier (closed) window carries a source-native string
`end`, and a call at a different time yields a different result. -/
theorem get_iss_sun_exposures_open_window (rows : List ExpRow) (t1 : String)
    (now : Int) (ws : List Window)
    (hlast : rows.getLast? = some ⟨t1, "start"⟩)
    (hcall : get_iss_sun_exposures rows now = some ws) :
    ws.getLast? = some ⟨t1, TsVal.num now⟩
      ∧ (∀ w ∈ ws.dropLast, ∃ s, w.«end» = TsVal.str s)
      ∧ ∀ now', now' ≠ now →
          get_iss_sun_exposures rows now' ≠ some ws := by
  unfold get_iss_sun_exposures at hcall ⊢
  cases hpw : pairWindows rows with
  | none => rw [hpw] at hcall; exact absurd hcall (by simp)
  | some closed =>
      rw [hpw, hlast] at hcall
      simp at hcall
      refine ⟨?_, ?_, ?_⟩
      · rw [← hcall]
        exact List.getLast?_concat _
      · intro w hw
        rw [← hcall, List.dropLast_concat] at hw
        obtain ⟨p, _, hpeq⟩ := List.mem_map.mp hw
        exact ⟨p.2, by rw [← hpeq]⟩
      · intro now' hnow hcall'
        rw [hlast] at hcall'
        simp at hcall'
        rw [← hcall] at hcall'
        have := List.append_inj_right hcall' rfl
        simp at this
        exact hnow this

/-- Witness for C5 at the concrete log `[("t1", start)]` and time `5`. -/
theorem get_iss_sun_exposures_open_window_witness :
    ([⟨"t1", TsVal.num 5⟩] : List Window).getLast? = some ⟨"t1", TsVal.num 5⟩
      ∧ (∀ w ∈ ([⟨"t1", TsVal.num 5⟩] : List Window).dropLast,
          ∃ s, w.«end» = TsVal.str s)
      ∧ ∀ now', now' ≠ 5 →
          get_iss_sun_exposures [⟨"t1", "start"⟩] now' ≠
            some [⟨"t1", TsVal.num 5⟩] :=
  get_iss_sun_exposures_open_window [⟨"t1", "start"⟩] "t1" 5
    [⟨"t1", TsVal.num 5⟩] (by rfl) (by rfl)

/-- C6: the shutdown reconciler deletes the most recent exposure event
exactly when its marker is `start` and is otherwise a no-op, never
touching the position log; reconciling the log `[(t1, start)]` and then
listing windows yields the empty sequence, and reconciling any log
ending `(t1, start), (t2, end)` changes nothing. -/
theorem shutdown_event_spec (s : DBState) (l : List ExpRow)
    (t1 t2 : String) (now : Int) :
    (shutdown_event s).positions = s.positions
      ∧ (shutdown_event s).exposures =
          (if lastMarker s.exposures = some "start" then s.exposures.dropLast
           else s.exposures)
      ∧ get_iss_sun_exposures
          (shutdown_event ⟨s.positions, [⟨t1, "start"⟩]⟩).exposures now = some []
      ∧ shutdown_event ⟨s.positions, l ++ [⟨t1, "start"⟩, ⟨t2, "end"⟩]⟩ =
          ⟨s.positions, l ++ [⟨t1, "start"⟩, ⟨t2, "end"⟩]⟩ := by
  refine ⟨?_, ?_, ?_, ?_⟩
  · unfold shutdown_event
    cases s.exposures.getLast? with
    | none => rfl
    | some r => by_cases h : r.window = "start" <;> simp [h]
  · unfold shutdown_event lastMarker
    cases s.exposures.getLast? with
    | none => simp
    | some r => by_cases h : r.window = "start" <;> simp [h]
  · rfl
  · have hform : l ++ [ExpRow.mk t1 "start", ExpRow.mk t2 "end"] =
        (l ++ [ExpRow.mk t1 "start"]) ++ [ExpRow.mk t2 "end"] := by simp
    unfold shutdown_event
    rw [hform, List.getLast?_concat]
    simp

/-- C3: a poll cycle whose fetch fails with a transport error leaves
both the position log and the exposure event log unchanged and sleeps
the same fixed 20-unit delay as a successful cycle; the loop proceeds
to the remaining cycles exactly as if the failed one had not happened. -/
theorem fetch_iss_data_cycle_failure_isolation (s s' : DBState) (d : ISSData)
    (rs : List FetchResult) :
    fetch_iss_data_cycle s .transportError = (s, 20)
      ∧ (fetch_iss_data_cycle s' (.success d)).2 = 20
      ∧ runPoller s (.transportError :: rs) = runPoller s rs :=
  ⟨rfl, rfl, rfl⟩

/-- C2: in a successful cycle the decision step appends a `start` event
iff the visibility is `daylight` and the log is empty or last ended,
appends an `end` event iff the visibility is not `daylight` and the
last marker is `start`, and otherwise leaves the exposure log
unchanged. -/
theorem fetch_iss_data_cycle_decision (s : DBState) (d : ISSData) :
    ((fetch_iss_data_cycle s (.success d)).1.exposures =
        s.exposures ++ [⟨d.timestamp, "start"⟩]
      ↔ d.visibility = "daylight" ∧
          (s.exposures = [] ∨ lastMarker s.exposures = some "end"))
      ∧ ((fetch_iss_data_cycle s (.success d)).1.exposures =
            s.exposures ++ [⟨d.timestamp, "end"⟩]
          ↔ d.visibility ≠ "daylight" ∧ lastMarker s.exposures = some "start")
      ∧ ((fetch_iss_data_cycle s (.success d)).1.exposures = s.exposures
          ↔ ¬(d.visibility = "daylight" ∧
                (s.exposures = [] ∨ lastMarker s.exposures = some "end"))
            ∧ ¬(d.visibility ≠ "daylight" ∧
                  lastMarker s.exposures = some "start")) := by
  have hempty : lastMarker s.exposures = none ↔ s.exposures = [] := by
    simp [lastMarker, List.getLast?_eq_none_iff]
  by_cases hv : d.visibility = "daylight"
  · by_cases hc : lastMarker s.exposures = none ∨ lastMarker s.exposures = some "end"
    · have hc' : s.exposures = [] ∨ lastMarker s.exposures = some "end" := by
        rcases hc with h | h
        · exact Or.inl (hempty.mp h)
        · exact Or.inr h
      simp [fetch_iss_data_cycle, hv, hc, hc', ExpRow.mk.injEq]
    · have hc' : ¬(s.exposures = [] ∨ lastMarker s.exposures = some "end") := by
        intro h
        rcases h with h | h
        · exact hc (Or.inl (hempty.mpr h))
        · exact hc (Or.inr h)
      simp [fetch_iss_data_cycle, hv, hc, hc']
  · by_cases hc : lastMarker s.exposures = some "start"
    · simp [fetch_iss_data_cycle, hv, hc, ExpRow.mk.injEq]
    · simp [fetch_iss_data_cycle, hv, hc]

theorem lastMarker_eq_markers_getLast? (l : List ExpRow) :
    lastMarker l = (markers l).getLast? :=
  (List.getLast?_map ExpRow.window l).symm

theorem validLog_append_start (l : List String) (h : validLog l = true)
    (hl : l.getLast? = none ∨ l.getLast? = some "end") :
    validLog (l ++ ["start"]) = true := by
  induction l using validLog.induct with
  | case1 => decide
  | case2 m =>
      simp [validLog] at h
      rcases hl with hl | hl
      · simp at hl
      · simp at hl
        rw [h] at hl
        exact absurd hl (by decide)
  | case3 m1 m2 rest ih =>
      simp [validLog] at h
      obtain ⟨h1, h2, h3⟩ := h
      subst h1
      subst h2
      rcases rest with _ | ⟨r, rs⟩
      · decide
      · have hl' : (r :: rs).getLast? = none ∨ (r :: rs).getLast? = some "end" := by
          rw [List.getLast?_cons_cons, List.getLast?_cons_cons] at hl
          exact hl
        have := ih h3 hl'
        simpa [validLog] using this

theorem validLog_append_end (l : List String) (h : validLog l = true)
    (hl : l.getLast? = some "start") :
    validLog (l ++ ["end"]) = true := by
  induction l using validLog.induct with
  | case1 => simp at hl
  | case2 m =>
      simp [validLog] at h
      subst h
      decide
  | case3 m1 m2 rest ih =>
      simp [validLog] at h
      obtain ⟨h1, h2, h3⟩ := h
      subst h1
      subst h2
      rcases rest with _ | ⟨r, rs⟩
      · rw [List.getLast?_cons_cons] at hl
        simp at hl
      · have hl' : (r :: rs).getLast? = some "start" := by
          rw [List.getLast?_cons_cons, List.getLast?_cons_cons] at hl
          exact hl
        have := ih h3 hl'
        simpa [validLog] using this

theorem fetch_iss_data_cycle_preserves_validLog (s : DBState) (r : FetchResult)
    (h : validLog (markers s.exposures) = true) :
    validLog (markers (fetch_iss_data_cycle s r).1.exposures) = true := by
  cases r with
  | transportError => exact h
  | success d =>
      unfold fetch_iss_data_cycle
      by_cases hv : d.visibility = "daylight"
      · by_cases hc : lastMarker s.exposures = none ∨ lastMarker s.exposures = some "end"
        · simp only [hv, hc, if_pos, if_true]
          rw [show markers (s.exposures ++ [⟨d.timestamp, "start"⟩]) =
                markers s.exposures ++ ["start"] from List.map_append _ _ _]
          exact validLog_append_start _ h
            (by rw [← lastMarker_eq_markers_getLast?]; exact hc)
        · simp only [hv, hc, if_true, if_false]
          exact h
      · by_cases hc : lastMarker s.exposures = some "start"
        · simp only [hv, hc, if_false, if_true]
          rw [show markers (s.exposures ++ [⟨d.timestamp, "end"⟩]) =
                markers s.exposures ++ ["end"] from List.map_append _ _ _]
          exact validLog_append_end _ h
            (by rw [← lastMarker_eq_markers_getLast?]; exact hc)
        · simp only [hv, hc, if_false]
          exact h

/-- C1: starting from any exposure log satisfying the alternation
invariant (in particular the empty log), any finite sequence of poll
cycles — fetch failures included — preserves it: the marker sequence
read in insertion order always matches `(start end)* (start | ε)`,
so it strictly alternates with at most one trailing unmatched `start`. -/
theorem alternation_invariant (rs : List FetchResult) (s : DBState)
    (h : validLog (markers s.exposures) = true) :
    validLog (markers (runPoller s rs).exposures) = true := by
  induction rs generalizing s with
  | nil => exact h
  | cons r rest ih => exact ih _ (fetch_iss_data_cycle_preserves_validLog s r h)

/-- Witness for C1: four cycles (daylight, eclipsed, a transport
failure, daylight) from the empty database. -/
theorem alternation_invariant_witness :
    validLog (markers ([] : List ExpRow)) = true
      ∧ validLog (markers (runPoller ⟨[], []⟩
          [.success ⟨"1", 0, 0, "daylight"⟩,
           .success ⟨"2", 0, 0, "eclipsed"⟩,
           .transportError,
           .success ⟨"3", 0, 0, "daylight"⟩]).exposures) = true :=
  ⟨rfl, alternation_invariant
    [.success ⟨"1", 0, 0, "daylight"⟩,
     .success ⟨"2", 0, 0, "eclipsed"⟩,
     .transportError,
     .success ⟨"3", 0, 0, "daylight"⟩] ⟨[], []⟩ rfl⟩

theorem lastMarker_concat (l : List ExpRow) (e : ExpRow) :
    lastMarker (l ++ [e]) = some e.window := by
  unfold lastMarker
  rw [List.getLast?_concat]
  rfl

theorem fetch_iss_data_cycle_stable (s : DBState) (d d' : ISSData)
    (hv : d'.visibility = d.visibility) :
    (fetch_iss_data_cycle
        (fetch_iss_data_cycle s (.success d)).1 (.success d')).1.exposures
      = (fetch_iss_data_cycle s (.success d)).1.exposures := by
  by_cases hd : d.visibility = "daylight"
  · by_cases hc : lastMarker s.exposures = none ∨ lastMarker s.exposures = some "end"
    · simp [fetch_iss_data_cycle, hv, hd, hc, lastMarker_concat]
    · simp [fetch_iss_data_cycle, hv, hd, hc]
  · by_cases hc : lastMarker s.exposures = some "start"
    · simp [fetch_iss_data_cycle, hv, hd, hc, lastMarker_concat]
    · simp [fetch_iss_data_cycle, hv, hd, hc]

theorem fetch_iss_data_cycle_exposures_length (s : DBState) (d : ISSData) :
    (fetch_iss_data_cycle s (.success d)).1.exposures.length ≤
      s.exposures.length + 1 := by
  unfold fetch_iss_data_cycle
  by_cases hd : d.visibility = "daylight"
  · by_cases hc : lastMarker s.exposures = none ∨ lastMarker s.exposures = some "end"
    · simp [hd, hc]
    · simp [hd, hc]
  · by_cases hc : lastMarker s.exposures = some "start"
    · simp [hd, hc]
    · simp [hd, hc]

theorem runPoller_success_stable (rest : List ISSData) (s : DBState) (d : ISSData)
    (hrest : ∀ d' ∈ rest, d'.visibility = d.visibility) :
    (runPoller (fetch_iss_data_cycle s (.success d)).1
        (rest.map FetchResult.success)).exposures
      = (fetch_iss_data_cycle s (.success d)).1.exposures := by
  induction rest generalizing s d with
  | nil => rfl
  | cons e rest ih =>
      have hv : e.visibility = d.visibility := hrest e (by simp)
      have hrest' : ∀ d' ∈ rest, d'.visibility = e.visibility := by
        intro d' hd'
        rw [hrest d' (by simp [hd']), hv]
      calc (runPoller (fetch_iss_data_cycle s (.success d)).1
              ((e :: rest).map FetchResult.success)).exposures
          = (runPoller
              (fetch_iss_data_cycle
                (fetch_iss_data_cycle s (.success d)).1 (.success e)).1
              (rest.map FetchResult.success)).exposures := rfl
        _ = (fetch_iss_data_cycle
              (fetch_iss_data_cycle s (.success d)).1 (.success e)).1.exposures :=
            ih _ e hrest'
        _ = (fetch_iss_data_cycle s (.success d)).1.exposures :=
            fetch_iss_data_cycle_stable s d e hv

/-- C8: for every starting database state, `N ≥ 1` consecutive
successful cycles that all observe the same visibility value append at
most one exposure event in total. -/
theorem debounce (s : DBState) (ds : List ISSData) (v : String)
    (hne : ds ≠ []) (hsame : ∀ d ∈ ds, d.visibility = v) :
    (runPoller s (ds.map FetchResult.success)).exposures.length ≤
      s.exposures.length + 1 := by
  rcases ds with _ | ⟨d, rest⟩
  · exact absurd rfl hne
  · have hrest : ∀ d' ∈ rest, d'.visibility = d.visibility := by
      intro d' hd'
      rw [hsame d' (by simp [hd']), hsame d (by simp)]
    have hstep : runPoller s ((d :: rest).map FetchResult.success) =
        runPoller (fetch_iss_data_cycle s (.success d)).1
          (rest.map FetchResult.success) := rfl
    rw [hstep, runPoller_success_stable rest s d hrest]
    exact fetch_iss_data_cycle_exposures_length s d

/-- Witness for C8: three consecutive daylight samples from the empty
database yield a single `start` event. -/
theorem debounce_witness :
    ([⟨"1", 0, 0, "daylight"⟩, ⟨"2", 0, 0, "daylight"⟩,
        ⟨"3", 0, 0, "daylight"⟩] : List ISSData) ≠ []
      ∧ (∀ d ∈ ([⟨"1", 0, 0, "daylight"⟩, ⟨"2", 0, 0, "daylight"⟩,
            ⟨"3", 0, 0, "daylight"⟩] : List ISSData), d.visibility = "daylight")
      ∧ (runPoller ⟨[], []⟩
          (([⟨"1", 0, 0, "daylight"⟩, ⟨"2", 0, 0, "daylight"⟩,
              ⟨"3", 0, 0, "daylight"⟩] : List ISSData).map
            FetchResult.success)).exposures.length ≤
          ([] : List ExpRow).length + 1 :=
  ⟨by simp, by decide,
    debounce ⟨[], []⟩
      [⟨"1", 0, 0, "daylight"⟩, ⟨"2", 0, 0, "daylight"⟩,
        ⟨"3", 0, 0, "daylight"⟩] "daylight" (by simp) (by decide)⟩

/-- C7 counterexample: the log `[("t1", end)]` violates the alternation
invariant, yet `get_iss_sun_exposures` silently returns the empty
window list — the very same response as on an empty log — instead of
surfacing a fault: the pairing loop never visits the final unpaired
row, so neither assert fires. -/
theorem consistency_fault_counterexample :
    validLog (markers [⟨"t1", "end"⟩]) = false
      ∧ get_iss_sun_exposures [⟨"t1", "end"⟩] 0 = some []
      ∧ get_iss_sun_exposures [⟨"t1", "end"⟩] 0 = get_iss_sun_exposures [] 0 := by
  refine ⟨by decide, by decide, by decide⟩

theorem pair_violation_pairWindows_none :
    ∀ (k : Nat) (rows : List ExpRow) (r1 r2 : ExpRow),
      rows[2 * k]? = some r1 → rows[2 * k + 1]? = some r2 →
      ¬(r1.window = "start" ∧ r2.window = "end") →
      pairWindows rows = none := by
  intro k
  induction k with
  | zero =>
      intro rows r1 r2 h1 h2 hbad
      rcases rows with _ | ⟨a, rows'⟩
      · simp at h1
      rcases rows' with _ | ⟨b, rest⟩
      · simp at h2
      have ha : a = r1 := by simpa using h1
      have hb : b = r2 := by simpa using h2
      subst ha
      subst hb
      unfold pairWindows
      by_cases hs : a.window = "start"
      · by_cases he : b.window = "end"
        · exact absurd ⟨hs, he⟩ hbad
        · simp [hs, he]
      · simp [hs]
  | succ k ih =>
      intro rows r1 r2 h1 h2 hbad
      rcases rows with _ | ⟨a, rows'⟩
      · simp at h1
      rcases rows' with _ | ⟨b, rest⟩
      · rw [show 2 * (k + 1) = (2 * k + 1) + 1 from by ring] at h1
        simp at h1
      have h1' : rest[2 * k]? = some r1 := by
        rw [show 2 * (k + 1) = (2 * k) + 1 + 1 from by ring] at h1
        simpa using h1
      have h2' : rest[2 * k + 1]? = some r2 := by
        rw [show 2 * (k + 1) + 1 = (2 * k + 1) + 1 + 1 from by ring] at h2
        simpa using h2
      have hrest := ih rest r1 r2 h1' h2' hbad
      unfold pairWindows
      rw [hrest]
      by_cases hs : a.window = "start"
      · by_cases he : b.window = "end"
        · simp [hs, he]
        · simp [hs, he]
      · simp [hs]

/-- C7 amended: a violation of the alternation invariant that falls
inside a scanned pair — some positions `2k` and `2k+1` both present
whose markers are not literally `(start, end)` — makes
`get_iss_sun_exposures` raise (assert failure), which the `log`
decorator surfaces as the error response, distinguishable from the
no-data result `some []`.  (A violation confined to the final unpaired
row, such as a lone trailing `end`, is instead silently dropped — see
the counterexample.) -/
theorem pair_violation_surfaces_fault (rows : List ExpRow) (now : Int)
    (k : Nat) (r1 r2 : ExpRow)
    (h1 : rows[2 * k]? = some r1) (h2 : rows[2 * k + 1]? = some r2)
    (hbad : ¬(r1.window = "start" ∧ r2.window = "end")) :
    get_iss_sun_exposures rows now = none := by
  unfold get_iss_sun_exposures
  rw [pair_violation_pairWindows_none k rows r1 r2 h1 h2 hbad]

/-- Witness for the amended C7 at the log `[("a", end), ("b", end)]`. -/
theorem pair_violation_surfaces_fault_witness :
    get_iss_sun_exposures [⟨"a", "end"⟩, ⟨"b", "end"⟩] 0 = none :=
  pair_violation_surfaces_fault [⟨"a", "end"⟩, ⟨"b", "end"⟩] 0 0
    ⟨"a", "end"⟩ ⟨"b", "end"⟩ rfl rfl (by decide)

/-- C10: posting a valid polygon whose uuid already exists leaves the
polygon table unchanged and answers the generic error body
`{'message': 'An error occured'}` (the `UNIQUE` violation raised by
the insert is swallowed by the `log` decorator); consequently every
post operation preserves uuid uniqueness of the table. -/
theorem post_2d_polygon_duplicate_uuid (store : List PolygonRow)
    (p : PolygonRow) (hdup : ∃ r ∈ store, r.uuid = p.uuid) :
    post_2d_polygon true store p = (store, "An error occured")
      ∧ ∀ (v : Bool) (st : List PolygonRow) (q : PolygonRow),
          (st.map PolygonRow.uuid).Nodup →
          ((post_2d_polygon v st q).1.map PolygonRow.uuid).Nodup := by
  constructor
  · have hany : store.any (fun r => r.uuid = p.uuid) = true := by
      rw [List.any_eq_true]
      obtain ⟨r, hr, he⟩ := hdup
      exact ⟨r, hr, by simp [he]⟩
    simp [post_2d_polygon, insertPolygon, hany]
  · intro v st q hnd
    cases v with
    | false => simpa [post_2d_polygon] using hnd
    | true =>
        by_cases hany : st.any (fun r => r.uuid = q.uuid) = true
        · simpa [post_2d_polygon, insertPolygon, hany] using hnd
        · have hnotin : q.uuid ∉ st.map PolygonRow.uuid := by
            intro hmem
            obtain ⟨r, hr, he⟩ := List.mem_map.mp hmem
            exact hany (List.any_eq_true.mpr ⟨r, hr, by simp [he]⟩)
          simp only [post_2d_polygon, insertPolygon, hany]
          simp
          refine List.Nodup.append hnd (List.nodup_singleton _) ?_
          intro x hx hx2
          simp at hx2
          subst hx2
          exact hnotin hx

/-- Witness for C10: posting a polygon whose uuid `u1` is already
stored. -/
theorem post_2d_polygon_duplicate_uuid_witness :
    post_2d_polygon true [⟨"u1", "red", "w"⟩] ⟨"u1", "blue", "w2"⟩ =
        ([⟨"u1", "red", "w"⟩], "An error occured")
      ∧ ∀ (v : Bool) (st : List PolygonRow) (q : PolygonRow),
          (st.map PolygonRow.uuid).Nodup →
          ((post_2d_polygon v st q).1.map PolygonRow.uuid).Nodup :=
  post_2d_polygon_duplicate_uuid [⟨"u1", "red", "w"⟩] ⟨"u1", "blue", "w2"⟩
    ⟨⟨"u1", "red", "w"⟩, by simp, rfl⟩

end WhereTheISS
